import Mathlib

/-!
Formal model of the C ABI declared in `src/lv-src/bin/bindings.h` of the
`reqwest-labview` repository.  The repository ships only the header, so the
behaviour of the nine entry points (the five verb calls, `http_read_response`,
`http_free_response`, `http_get_last_error`, `http_shutdown`) is modelled from
the specification: an opaque-handle registry, a response store with a
per-response read cursor, a per-thread error channel, a dispatch facade over an
abstract transport, and a terminal shutdown flag.  Concurrency is modelled as
an arbitrary interleaving of atomic operations, which is exactly the atomicity
contract the specification imposes on registry mutations.
-/

/-- Modelled from the spec: the success return code of every entry point. -/
def OK : Int := 0

/-- Modelled from the spec: distinguished nonzero code for a local validation
failure (invalid argument). -/
def ERR_INVALID_ARGUMENT : Int := 1

/-- Modelled from the spec: distinguished nonzero code for a transport or
network failure. -/
def ERR_TRANSPORT : Int := 2

/-- Modelled from the spec: distinguished nonzero code for an expired
timeout. -/
def ERR_TIMEOUT : Int := 3

/-- Modelled from the spec: distinguished nonzero code for an invalid (freed,
unissued, or shutdown-invalidated) handle. -/
def ERR_INVALID_HANDLE : Int := 5

/-- Modelled from the spec: distinguished nonzero code returned by the verb
entry points after global shutdown. -/
def ERR_SHUTDOWN : Int := 6

/-- Modelled from the spec: the negative value returned by
`http_read_response` when the handle is invalid (negative = error). -/
def READ_ERR_INVALID_HANDLE : Int := -1

/-- Modelled from the spec: the five request verbs of the dispatch facade. -/
inductive Method where
  | GET
  | POST
  | PUT
  | PATCH
  | DELETE
  deriving DecidableEq, Repr

/-- Modelled from the spec: POST, PUT and PATCH carry a body pointer and
length; GET and DELETE do not. -/
def methodHasBody : Method → Bool
  | Method.POST => true
  | Method.PUT => true
  | Method.PATCH => true
  | _ => false

/-- Modelled from the spec: the transient request record handed to the
transport collaborator. -/
structure HttpRequest where
  method : Method
  url : String
  headersJson : String
  body : List Nat
  timeoutMs : Int

/-- Modelled from the spec: the outcome of the external transport performing
one request: a status and body on success, or a transport error, or an expired
timeout. -/
inductive TransportResult where
  | success (status : Nat) (body : List Nat)
  | transportError (msg : String)
  | timeout
  deriving DecidableEq

/-- Modelled from the spec: the external collaborators that are out of scope
for the core (URL syntax validation, headers-JSON validation, the network
transport), treated as parameters of the model. -/
structure HttpEnv where
  validUrl : String → Bool
  validHeaders : String → Bool
  transport : HttpRequest → TransportResult

/-- Modelled from the spec: a completed response held by the response store: a
status, an immutable body, and a mutable forward-only read cursor. -/
structure HttpResponse where
  status : Nat
  body : List Nat
  cursor : Nat
  deriving DecidableEq

/-- Modelled from the spec: the three output slots written by a successful
verb call: the opaque handle, the response byte length, and the HTTP status. -/
structure DispatchOut where
  handle : Nat
  responseLen : Int
  status : Nat
  deriving DecidableEq

/-- Modelled from the spec: the process-wide mutable state: the handle
registry together with the response store (an association from live handle
values to responses), the monotone handle allocator (never reusing a value),
the per-thread error slots, and the terminal shutdown flag. -/
structure ClientState where
  nextHandle : Nat
  live : List (Nat × HttpResponse)
  errors : List (Nat × String)
  isShutdown : Bool
  deriving DecidableEq

/-- Lookup in an association list keyed by natural numbers (first match). -/
def alookup {α : Type} (k : Nat) : List (Nat × α) → Option α
  | [] => none
  | (k2, v) :: rest => if k2 = k then some v else alookup k rest

/-- Replace the value at the first occurrence of a key. -/
def aupdate {α : Type} (k : Nat) (v : α) : List (Nat × α) → List (Nat × α)
  | [] => []
  | (k2, v2) :: rest =>
      if k2 = k then (k2, v) :: rest else (k2, v2) :: aupdate k v rest

/-- Remove the first occurrence of a key. -/
def aremove {α : Type} (k : Nat) : List (Nat × α) → List (Nat × α)
  | [] => []
  | (k2, v2) :: rest => if k2 = k then rest else (k2, v2) :: aremove k rest

/-- Modelled from the spec: record a failure message in the calling thread's
error slot, overwriting that thread's previous message and touching nothing
else. -/
def setError (tid : Nat) (msg : String) (s : ClientState) : ClientState :=
  { s with errors := (tid, msg) :: s.errors }

/-- A response with its cursor moved. -/
def withCursor (r : HttpResponse) (c : Nat) : HttpResponse :=
  { r with cursor := c }

/-- A client state with its registry replaced. -/
def withLive (s : ClientState) (l : List (Nat × HttpResponse)) : ClientState :=
  { s with live := l }

/-- Modelled from the spec: binding a fresh handle to a completed response
(cursor at zero) in the registry, never reusing a handle value. -/
def bindNew (s : ClientState) (st : Nat) (rbody : List Nat) : ClientState :=
  { s with
     nextHandle := s.nextHandle + 1,
     live := (s.nextHandle, ⟨st, rbody, 0⟩) :: s.live }

/-- Modelled from the spec: validation of the body pointer and length pair of
a verb call.  A null pointer with length zero is the empty body; a null
pointer with a nonzero length, a non-null pointer with a mismatched or
non-positive length, are local validation failures.  GET and DELETE take no
body. -/
def checkBody (m : Method) (bodyPtr : Option (List Nat)) (bodyLen : Int) :
    Option (List Nat) :=
  if methodHasBody m then
    match bodyPtr with
    | none => if bodyLen = 0 then some [] else none
    | some bs => if 0 < bodyLen ∧ bodyLen = Int.ofNat bs.length then some bs else none
  else some []

/-- Modelled from the spec: the dispatch facade shared by the five verb entry
points.  After a shutdown check it validates the URL, the headers, the body
pair and the timeout locally, then invokes the transport; on success it binds
a fresh handle to the response (cursor zero) and reports handle, byte length
and status through the output slots; on any failure it records a message in
the calling thread's error slot, leaves the output slots untouched and
returns a distinguished nonzero code. -/
def dispatch (env : HttpEnv) (tid : Nat) (m : Method) (url headersJson : String)
    (bodyPtr : Option (List Nat)) (bodyLen timeoutMs : Int)
    (s : ClientState) : Int × Option DispatchOut × ClientState :=
  if s.isShutdown then
    (ERR_SHUTDOWN, none, setError tid "client has been shut down" s)
  else if url = "" ∨ env.validUrl url = false then
    (ERR_INVALID_ARGUMENT, none, setError tid "invalid url" s)
  else if headersJson ≠ "" ∧ env.validHeaders headersJson = false then
    (ERR_INVALID_ARGUMENT, none, setError tid "invalid headers json" s)
  else
    match checkBody m bodyPtr bodyLen with
    | none => (ERR_INVALID_ARGUMENT, none, setError tid "invalid body argument" s)
    | some body =>
      if timeoutMs ≤ 0 then
        (ERR_INVALID_ARGUMENT, none, setError tid "invalid timeout" s)
      else
        match env.transport ⟨m, url, headersJson, body, timeoutMs⟩ with
        | TransportResult.timeout =>
            (ERR_TIMEOUT, none, setError tid "timeout expired" s)
        | TransportResult.transportError _ =>
            (ERR_TRANSPORT, none, setError tid "transport failure" s)
        | TransportResult.success st rbody =>
            (OK, some ⟨s.nextHandle, (rbody.length : Int), st⟩, bindNew s st rbody)

/-- Modelled from the spec: the `http_get` entry point of `bindings.h`. -/
def http_get (env : HttpEnv) (tid : Nat) (url headersJson : String)
    (timeoutMs : Int) (s : ClientState) : Int × Option DispatchOut × ClientState :=
  dispatch env tid Method.GET url headersJson none 0 timeoutMs s

/-- Modelled from the spec: the `http_post` entry point of `bindings.h`. -/
def http_post (env : HttpEnv) (tid : Nat) (url headersJson : String)
    (bodyPtr : Option (List Nat)) (bodyLen timeoutMs : Int)
    (s : ClientState) : Int × Option DispatchOut × ClientState :=
  dispatch env tid Method.POST url headersJson bodyPtr bodyLen timeoutMs s

/-- Modelled from the spec: the `http_put` entry point of `bindings.h`. -/
def http_put (env : HttpEnv) (tid : Nat) (url headersJson : String)
    (bodyPtr : Option (List Nat)) (bodyLen timeoutMs : Int)
    (s : ClientState) : Int × Option DispatchOut × ClientState :=
  dispatch env tid Method.PUT url headersJson bodyPtr bodyLen timeoutMs s

/-- Modelled from the spec: the `http_patch` entry point of `bindings.h`. -/
def http_patch (env : HttpEnv) (tid : Nat) (url headersJson : String)
    (bodyPtr : Option (List Nat)) (bodyLen timeoutMs : Int)
    (s : ClientState) : Int × Option DispatchOut × ClientState :=
  dispatch env tid Method.PATCH url headersJson bodyPtr bodyLen timeoutMs s

/-- Modelled from the spec: the `http_delete` entry point of `bindings.h`. -/
def http_delete (env : HttpEnv) (tid : Nat) (url headersJson : String)
    (timeoutMs : Int) (s : ClientState) : Int × Option DispatchOut × ClientState :=
  dispatch env tid Method.DELETE url headersJson none 0 timeoutMs s

/-- Modelled from the spec: the `http_read_response` entry point of
`bindings.h`.  On a live handle it copies up to the buffer capacity many bytes
starting at the cursor into the caller buffer, advances the cursor by the
number copied and returns that count (0 once exhausted); on an invalid handle
it records an error and returns a negative code, touching neither the
registry nor the store. -/
def http_read_response (tid : Nat) (h : Nat) (bufLen : Int) (s : ClientState) :
    Int × List Nat × ClientState :=
  match alookup h s.live with
  | none => (READ_ERR_INVALID_HANDLE, [], setError tid "invalid handle" s)
  | some r =>
      let n := min (Int.toNat bufLen) (r.body.length - r.cursor)
      ((n : Int), (r.body.drop r.cursor).take n,
       withLive s (aupdate h (withCursor r (r.cursor + n)) s.live))

/-- Modelled from the spec: the `http_free_response` entry point of
`bindings.h`.  Freeing a live handle releases its response and retires the
handle; freeing anything else reports the invalid-handle condition and leaves
the registry and store unchanged. -/
def http_free_response (tid : Nat) (h : Nat) (s : ClientState) :
    Int × ClientState :=
  match alookup h s.live with
  | none => (ERR_INVALID_HANDLE, setError tid "invalid handle" s)
  | some _ => (OK, withLive s (aremove h s.live))

/-- Modelled from the spec: the `http_get_last_error` entry point of
`bindings.h`.  Copies the calling thread's most recent message into the
caller buffer, truncating to the capacity while leaving room for the
terminator, and returns the byte count written, or the full required length
(message length plus terminator) when the buffer is too small;
with no recorded error it reports an empty result. -/
def http_get_last_error (tid : Nat) (bufLen : Int) (s : ClientState) :
    Int × List Char :=
  match alookup tid s.errors with
  | none => (0, [])
  | some m =>
      if ((m.length + 1 : Nat) : Int) ≤ bufLen then ((m.length : Int), m.toList)
      else (((m.length + 1 : Nat) : Int), m.toList.take (Int.toNat bufLen - 1))

/-- Modelled from the spec: the `http_shutdown` entry point of `bindings.h`.
Moves every live handle to freed and sets the terminal shutdown flag; there
is no re-initialization path. -/
def http_shutdown (s : ClientState) : ClientState :=
  { s with live := [], isShutdown := true }

/-- Modelled from the spec: one atomic operation at the ABI surface, tagged
with the calling thread where the entry point has one. -/
inductive Op where
  | verb (tid : Nat) (m : Method) (url headersJson : String)
      (bodyPtr : Option (List Nat)) (bodyLen timeoutMs : Int)
  | readOp (tid : Nat) (h : Nat) (bufLen : Int)
  | freeOp (tid : Nat) (h : Nat)
  | getErrOp (tid : Nat) (bufLen : Int)
  | shutdownOp
  deriving DecidableEq

/-- The calling thread of an operation, when the entry point has one. -/
def opThread : Op → Option Nat
  | Op.verb tid _ _ _ _ _ _ => some tid
  | Op.readOp tid _ _ => some tid
  | Op.freeOp tid _ => some tid
  | Op.getErrOp tid _ => some tid
  | Op.shutdownOp => none

/-- The state transition of one atomic operation. -/
def step (env : HttpEnv) (s : ClientState) : Op → ClientState
  | Op.verb tid m url headersJson bodyPtr bodyLen timeoutMs =>
      (dispatch env tid m url headersJson bodyPtr bodyLen timeoutMs s).2.2
  | Op.readOp tid h bufLen => (http_read_response tid h bufLen s).2.2
  | Op.freeOp tid h => (http_free_response tid h s).2
  | Op.getErrOp _ _ => s
  | Op.shutdownOp => http_shutdown s

/-- Run a sequence of atomic operations (an interleaving of the calls of
arbitrarily many threads). -/
def run (env : HttpEnv) (s : ClientState) : List Op → ClientState
  | [] => s
  | op :: rest => run env (step env s op) rest

/-- Modelled from the spec: the three lifecycle states of a handle value. -/
inductive HState where
  | unissued
  | live
  | freed
  deriving DecidableEq

/-- Modelled from the spec: the lifecycle state of a handle value in a given
client state: live when the registry binds it, freed when it was issued and
is no longer bound, unissued otherwise. -/
def handleState (h : Nat) (s : ClientState) : HState :=
  if (alookup h s.live).isSome then HState.live
  else if h < s.nextHandle then HState.freed
  else HState.unissued

/-- The registry invariant: every live handle was issued, live handle values
are pairwise distinct, and after shutdown the registry is empty. -/
def WF (s : ClientState) : Prop :=
  (∀ k ∈ s.live.map Prod.fst, k < s.nextHandle) ∧
  (s.live.map Prod.fst).Nodup ∧
  (s.isShutdown = true → s.live = [])

/-- Repeatedly call `http_read_response` with a fixed buffer capacity,
collecting the returned counts and byte chunks, stopping at the first
non-positive count or when the fuel runs out. -/
def readLoop (tid h : Nat) (cap : Int) :
    Nat → ClientState → List (Int × List Nat) × ClientState
  | 0, s => ([], s)
  | Nat.succ fuel, s =>
      if (http_read_response tid h cap s).1 ≤ 0 then
        ([], (http_read_response tid h cap s).2.2)
      else
        (((http_read_response tid h cap s).1, (http_read_response tid h cap s).2.1)
            :: (readLoop tid h cap fuel (http_read_response tid h cap s).2.2).1,
         (readLoop tid h cap fuel (http_read_response tid h cap s).2.2).2)

/-- A concrete environment for witnesses: every URL of reasonable length is
accepted and the transport answers 200 with the two-byte body "hi". -/
def envT : HttpEnv where
  validUrl := fun u => u.length ≤ 1000
  validHeaders := fun _ => true
  transport := fun _ => TransportResult.success 200 [104, 105]

/-- The initial client state. -/
def s0 : ClientState where
  nextHandle := 0
  live := []
  errors := []
  isShutdown := false

/-- A concrete state for witnesses: one live handle 0 bound to a status-200
response with the two-byte body "hi"; it is the state after one successful
GET against `envT`. -/
def sLive : ClientState where
  nextHandle := 1
  live := [(0, ⟨200, [104, 105], 0⟩)]
  errors := []
  isShutdown := false

/-- A concrete state for witnesses: an error message recorded for thread 3. -/
def sErr : ClientState where
  nextHandle := 0
  live := []
  errors := [(3, "boom")]
  isShutdown := false

@[simp]
theorem setError_live (tid : Nat) (msg : String) (s : ClientState) :
    (setError tid msg s).live = s.live := rfl

@[simp]
theorem setError_nextHandle (tid : Nat) (msg : String) (s : ClientState) :
    (setError tid msg s).nextHandle = s.nextHandle := rfl

@[simp]
theorem setError_isShutdown (tid : Nat) (msg : String) (s : ClientState) :
    (setError tid msg s).isShutdown = s.isShutdown := rfl

@[simp]
theorem setError_errors (tid : Nat) (msg : String) (s : ClientState) :
    (setError tid msg s).errors = (tid, msg) :: s.errors := rfl

@[simp]
theorem withLive_live (s : ClientState) (l : List (Nat × HttpResponse)) :
    (withLive s l).live = l := rfl

@[simp]
theorem withLive_nextHandle (s : ClientState) (l : List (Nat × HttpResponse)) :
    (withLive s l).nextHandle = s.nextHandle := rfl

@[simp]
theorem withLive_isShutdown (s : ClientState) (l : List (Nat × HttpResponse)) :
    (withLive s l).isShutdown = s.isShutdown := rfl

@[simp]
theorem withLive_errors (s : ClientState) (l : List (Nat × HttpResponse)) :
    (withLive s l).errors = s.errors := rfl

@[simp]
theorem withCursor_status (r : HttpResponse) (c : Nat) :
    (withCursor r c).status = r.status := rfl

@[simp]
theorem withCursor_body (r : HttpResponse) (c : Nat) :
    (withCursor r c).body = r.body := rfl

@[simp]
theorem withCursor_cursor (r : HttpResponse) (c : Nat) :
    (withCursor r c).cursor = c := rfl

@[simp]
theorem bindNew_live (s : ClientState) (st : Nat) (rbody : List Nat) :
    (bindNew s st rbody).live = (s.nextHandle, ⟨st, rbody, 0⟩) :: s.live := rfl

@[simp]
theorem bindNew_nextHandle (s : ClientState) (st : Nat) (rbody : List Nat) :
    (bindNew s st rbody).nextHandle = s.nextHandle + 1 := rfl

@[simp]
theorem bindNew_isShutdown (s : ClientState) (st : Nat) (rbody : List Nat) :
    (bindNew s st rbody).isShutdown = s.isShutdown := rfl

@[simp]
theorem bindNew_errors (s : ClientState) (st : Nat) (rbody : List Nat) :
    (bindNew s st rbody).errors = s.errors := rfl

theorem alookup_eq_none {α : Type} {k : Nat} {l : List (Nat × α)}
    (h : k ∉ l.map Prod.fst) : alookup k l = none := by
  induction l with
  | nil => rfl
  | cons p rest ih =>
      obtain ⟨k1, v1⟩ := p
      simp only [List.map_cons, List.mem_cons] at h
      push_neg at h
      simp [alookup, Ne.symm h.1, ih h.2]

theorem alookup_aupdate_self {α : Type} {k : Nat} {l : List (Nat × α)} (v : α)
    {v0 : α} (h : alookup k l = some v0) :
    alookup k (aupdate k v l) = some v := by
  induction l with
  | nil => simp [alookup] at h
  | cons p rest ih =>
      obtain ⟨k1, v1⟩ := p
      by_cases hk : k1 = k
      · simp [alookup, aupdate, hk]
      · simp only [alookup, aupdate, hk, if_false] at h ⊢
        exact ih h

theorem alookup_aupdate_ne {α : Type} {k k2 : Nat} (hne : k2 ≠ k) (v : α)
    (l : List (Nat × α)) : alookup k2 (aupdate k v l) = alookup k2 l := by
  induction l with
  | nil => rfl
  | cons p rest ih =>
      obtain ⟨k1, v1⟩ := p
      by_cases hk : k1 = k
      · simp [alookup, aupdate, hk, Ne.symm hne]
      · simp [alookup, aupdate, hk, ih]

theorem aupdate_self {α : Type} {k : Nat} {l : List (Nat × α)} {v : α}
    (h : alookup k l = some v) : aupdate k v l = l := by
  induction l with
  | nil => rfl
  | cons p rest ih =>
      obtain ⟨k1, v1⟩ := p
      by_cases hk : k1 = k
      · simp only [alookup, hk, if_true] at h
        cases h
        simp [aupdate, hk]
      · simp only [alookup, hk, if_false] at h
        simp [aupdate, hk, ih h]

theorem aupdate_aupdate {α : Type} (k : Nat) (v1 v2 : α) (l : List (Nat × α)) :
    aupdate k v2 (aupdate k v1 l) = aupdate k v2 l := by
  induction l with
  | nil => rfl
  | cons p rest ih =>
      obtain ⟨k1, w⟩ := p
      by_cases hk : k1 = k
      · simp [aupdate, hk]
      · simp [aupdate, hk, ih]

theorem aupdate_map_fst {α : Type} (k : Nat) (v : α) (l : List (Nat × α)) :
    (aupdate k v l).map Prod.fst = l.map Prod.fst := by
  induction l with
  | nil => rfl
  | cons p rest ih =>
      obtain ⟨k1, w⟩ := p
      by_cases hk : k1 = k
      · simp [aupdate, hk]
      · simp [aupdate, hk, ih]

theorem aremove_sublist {α : Type} (k : Nat) (l : List (Nat × α)) :
    List.Sublist (aremove k l) l := by
  induction l with
  | nil => simp [aremove]
  | cons p rest ih =>
      by_cases hk : p.1 = k
      · simp only [aremove, hk, if_true]
        exact List.Sublist.cons p (List.Sublist.refl rest)
      · simp only [aremove, hk, if_false]
        exact List.Sublist.cons₂ p ih

theorem alookup_aremove_self {α : Type} {k : Nat} {l : List (Nat × α)}
    (hnd : (l.map Prod.fst).Nodup) : alookup k (aremove k l) = none := by
  induction l with
  | nil => rfl
  | cons p rest ih =>
      obtain ⟨k1, v1⟩ := p
      simp only [List.map_cons, List.nodup_cons] at hnd
      by_cases hk : k1 = k
      · simp only [aremove, hk, if_true]
        apply alookup_eq_none
        rw [← hk]
        exact hnd.1
      · simp [aremove, alookup, hk, ih hnd.2]

theorem alookup_aremove_ne {α : Type} {k k2 : Nat} (hne : k2 ≠ k)
    (l : List (Nat × α)) : alookup k2 (aremove k l) = alookup k2 l := by
  induction l with
  | nil => rfl
  | cons p rest ih =>
      obtain ⟨k1, v1⟩ := p
      by_cases hk : k1 = k
      · simp [aremove, alookup, hk, Ne.symm hne]
      · simp [aremove, alookup, hk, ih]

theorem dispatch_cases (env : HttpEnv) (tid : Nat) (m : Method)
    (url headersJson : String) (bodyPtr : Option (List Nat))
    (bodyLen timeoutMs : Int) (s : ClientState) :
    (∃ code msg, code ≠ OK ∧ msg ≠ "" ∧
        dispatch env tid m url headersJson bodyPtr bodyLen timeoutMs s
          = (code, none, setError tid msg s)) ∨
    (∃ st rbody, s.isShutdown = false ∧
        dispatch env tid m url headersJson bodyPtr bodyLen timeoutMs s
          = (OK, some ⟨s.nextHandle, (rbody.length : Int), st⟩, bindNew s st rbody)) := by
  unfold dispatch
  split
  · exact Or.inl ⟨ERR_SHUTDOWN, "client has been shut down", by decide, by decide, rfl⟩
  next hns =>
    split
    · exact Or.inl ⟨ERR_INVALID_ARGUMENT, "invalid url", by decide, by decide, rfl⟩
    · split
      · exact Or.inl ⟨ERR_INVALID_ARGUMENT, "invalid headers json", by decide, by decide, rfl⟩
      · split
        · exact Or.inl ⟨ERR_INVALID_ARGUMENT, "invalid body argument", by decide, by decide, rfl⟩
        · split
          · exact Or.inl ⟨ERR_INVALID_ARGUMENT, "invalid timeout", by decide, by decide, rfl⟩
          · split
            all_goals first
              | exact Or.inl ⟨ERR_TIMEOUT, "timeout expired", by decide, by decide, rfl⟩
              | exact Or.inl ⟨ERR_TRANSPORT, "transport failure", by decide, by decide, rfl⟩
              | exact Or.inr ⟨_, _, by simpa using hns, rfl⟩

theorem dispatch_ok {env : HttpEnv} {tid : Nat} {m : Method}
    {url headersJson : String} {bodyPtr : Option (List Nat)}
    {bodyLen timeoutMs : Int} {s s2 : ClientState} {out : DispatchOut}
    (hd : dispatch env tid m url headersJson bodyPtr bodyLen timeoutMs s
            = (OK, some out, s2)) :
    ∃ st rbody, out = ⟨s.nextHandle, (rbody.length : Int), st⟩ ∧
      s2 = bindNew s st rbody ∧
      s.isShutdown = false := by
  rcases dispatch_cases env tid m url headersJson bodyPtr bodyLen timeoutMs s with
    ⟨code, msg, hcode, hmsg, heq⟩ | ⟨st, rbody, hsf, heq⟩
  · rw [hd] at heq
    simp [Prod.ext_iff] at heq
  · rw [hd] at heq
    simp only [Prod.mk.injEq, Option.some.injEq] at heq
    exact ⟨st, rbody, heq.2.1, heq.2.2, hsf⟩

theorem read_live (tid : Nat) {h : Nat} {s : ClientState} {r : HttpResponse}
    (hl : alookup h s.live = some r) (cap : Int) :
    http_read_response tid h cap s =
      (((min (Int.toNat cap) (r.body.length - r.cursor) : Nat) : Int),
       (r.body.drop r.cursor).take (min (Int.toNat cap) (r.body.length - r.cursor)),
       withLive s (aupdate h
          (withCursor r (r.cursor + min (Int.toNat cap) (r.body.length - r.cursor)))
          s.live)) := by
  simp [http_read_response, hl]

theorem read_at_end (tid : Nat) {h : Nat} {s : ClientState} {r : HttpResponse}
    (hl : alookup h s.live = some r) (hc : r.cursor = r.body.length) (cap : Int) :
    http_read_response tid h cap s = (0, [], s) := by
  have h2 : min (Int.toNat cap) (r.body.length - r.cursor) = 0 := by
    rw [hc]
    simp
  rw [read_live tid hl cap, h2]
  have h3 : withCursor r (r.cursor + 0) = r := rfl
  rw [h3, aupdate_self hl]
  exact rfl

theorem readLoop_total (tid h : Nat) (cap : Int) (hcap : 0 < cap) :
    ∀ (fuel : Nat) (s : ClientState) (r : HttpResponse),
      alookup h s.live = some r →
      r.cursor ≤ r.body.length →
      r.body.length - r.cursor ≤ fuel →
      ((readLoop tid h cap fuel s).1.map Prod.fst).sum
          = ((r.body.length - r.cursor : Nat) : Int) ∧
      (∀ c ∈ (readLoop tid h cap fuel s).1.map Prod.fst, 0 < c) ∧
      ((readLoop tid h cap fuel s).1.map Prod.snd).flatten = r.body.drop r.cursor ∧
      (readLoop tid h cap fuel s).2
          = withLive s (aupdate h (withCursor r r.body.length) s.live) := by
  intro fuel
  induction fuel with
  | zero =>
      intro s r hl hcle hfuel
      have hc : r.cursor = r.body.length := by omega
      have hz : r.body.length - r.cursor = 0 := by omega
      have hre : withCursor r r.body.length = r := by
        rw [← hc]
        exact rfl
      refine ⟨?_, ?_, ?_, ?_⟩
      · simp [readLoop, hz]
      · simp [readLoop]
      · simp [readLoop, hc, List.drop_length]
      · show s = withLive s (aupdate h (withCursor r r.body.length) s.live)
        rw [hre, aupdate_self hl]
        exact rfl
  | succ fuel ih =>
      intro s r hl hcle hfuel
      by_cases hend : r.body.length - r.cursor = 0
      · have hc : r.cursor = r.body.length := by omega
        have hre : withCursor r r.body.length = r := by
          rw [← hc]
          exact rfl
        have hread := read_at_end tid hl hc cap
        refine ⟨?_, ?_, ?_, ?_⟩
        · simp [readLoop, hread, hend]
        · simp [readLoop, hread]
        · simp [readLoop, hread, hc, List.drop_length]
        · have hgoal : (readLoop tid h cap (Nat.succ fuel) s).2 = s := by
            simp [readLoop, hread]
          rw [hgoal, hre, aupdate_self hl]
          exact rfl
      · have h1 : 1 ≤ Int.toNat cap := by omega
        have hn : 1 ≤ min (Int.toNat cap) (r.body.length - r.cursor) :=
          le_min h1 (by omega)
        have hnle : min (Int.toNat cap) (r.body.length - r.cursor)
            ≤ r.body.length - r.cursor := min_le_right _ _
        have hread := read_live tid hl cap
        have hposn :
            ¬ ((min (Int.toNat cap) (r.body.length - r.cursor) : Nat) : Int) ≤ 0 := by
          omega
        have hcond : ¬ (http_read_response tid h cap s).1 ≤ 0 := by
          rw [hread]
          exact hposn
        have ihres := ih
          (withLive s (aupdate h
            (withCursor r (r.cursor + min (Int.toNat cap) (r.body.length - r.cursor)))
            s.live))
          (withCursor r (r.cursor + min (Int.toNat cap) (r.body.length - r.cursor)))
          (alookup_aupdate_self _ hl)
          (show r.cursor + min (Int.toNat cap) (r.body.length - r.cursor)
              ≤ r.body.length by omega)
          (show r.body.length
              - (r.cursor + min (Int.toNat cap) (r.body.length - r.cursor)) ≤ fuel by
            omega)
        obtain ⟨ihsum, ihpos, ihjoin, ihstate⟩ := ihres
        have hstep : readLoop tid h cap (Nat.succ fuel) s
            = (((http_read_response tid h cap s).1,
                (http_read_response tid h cap s).2.1)
                :: (readLoop tid h cap fuel (http_read_response tid h cap s).2.2).1,
               (readLoop tid h cap fuel (http_read_response tid h cap s).2.2).2) := by
          simp only [readLoop]
          rw [if_neg hcond]
        refine ⟨?_, ?_, ?_, ?_⟩
        · rw [hstep, hread]
          dsimp only
          rw [List.map_cons, List.sum_cons, ihsum]
          show ((min (Int.toNat cap) (r.body.length - r.cursor) : Nat) : Int)
              + ((r.body.length
                  - (r.cursor + min (Int.toNat cap) (r.body.length - r.cursor))
                  : Nat) : Int)
              = ((r.body.length - r.cursor : Nat) : Int)
          omega
        · rw [hstep, hread]
          dsimp only
          simp only [List.map_cons, List.mem_cons]
          intro c hc
          rcases hc with hc | hc
          · rw [hc]
            show (0 : Int)
                < ((min (Int.toNat cap) (r.body.length - r.cursor) : Nat) : Int)
            omega
          · exact ihpos c hc
        · rw [hstep, hread]
          dsimp only
          rw [List.map_cons, List.flatten_cons, ihjoin]
          show (r.body.drop r.cursor).take
                (min (Int.toNat cap) (r.body.length - r.cursor))
              ++ r.body.drop
                (r.cursor + min (Int.toNat cap) (r.body.length - r.cursor))
              = r.body.drop r.cursor
          have hdd : r.body.drop
              (r.cursor + min (Int.toNat cap) (r.body.length - r.cursor))
                = (r.body.drop r.cursor).drop
                    (min (Int.toNat cap) (r.body.length - r.cursor)) := by
            rw [List.drop_drop]
          rw [hdd]
          exact List.take_append_drop _ _
        · rw [hstep, hread]
          dsimp only
          rw [ihstate]
          show withLive s
              (aupdate h (withCursor r r.body.length)
                (aupdate h
                  (withCursor r
                    (r.cursor + min (Int.toNat cap) (r.body.length - r.cursor)))
                  s.live))
            = withLive s (aupdate h (withCursor r r.body.length) s.live)
          rw [aupdate_aupdate]

theorem alookup_mem {α : Type} {k : Nat} {l : List (Nat × α)} {v : α}
    (h : alookup k l = some v) : k ∈ l.map Prod.fst := by
  induction l with
  | nil => simp [alookup] at h
  | cons p rest ih =>
      obtain ⟨k1, v1⟩ := p
      by_cases hk : k1 = k
      · simp [hk]
      · simp only [alookup, hk, if_false] at h
        simp [ih h]

theorem run_shutdown_stable (env : HttpEnv) :
    ∀ (ops : List Op) (s : ClientState), s.isShutdown = true → s.live = [] →
      (run env s ops).isShutdown = true ∧ (run env s ops).live = [] := by
  intro ops
  induction ops with
  | nil =>
      intro s h1 h2
      exact ⟨h1, h2⟩
  | cons op rest ih =>
      intro s h1 h2
      have hstep : (step env s op).isShutdown = true ∧ (step env s op).live = [] := by
        cases op with
        | verb tid m url headersJson bodyPtr bodyLen timeoutMs =>
            simp [step, dispatch, h1, h2, setError]
        | readOp tid hh bufLen =>
            simp [step, http_read_response, h1, h2, alookup, setError]
        | freeOp tid hh =>
            simp [step, http_free_response, h1, h2, alookup, setError]
        | getErrOp tid bufLen => exact ⟨h1, h2⟩
        | shutdownOp => simp [step, http_shutdown]
      have hres := ih (step env s op) hstep.1 hstep.2
      simpa [run] using hres

theorem step_errors_other (env : HttpEnv) (s : ClientState) (op : Op) (B : Nat)
    (hop : opThread op ≠ some B) :
    alookup B (step env s op).errors = alookup B s.errors := by
  cases op with
  | verb tid m url headersJson bodyPtr bodyLen timeoutMs =>
      have htid : ¬ tid = B := by
        simp only [opThread, ne_eq, Option.some.injEq] at hop
        exact hop
      rcases dispatch_cases env tid m url headersJson bodyPtr bodyLen timeoutMs s with
        ⟨code, msg, hc, hm, heq⟩ | ⟨st, rb, hs, heq⟩
      · simp [step, heq, setError, alookup, htid]
      · simp [step, heq, bindNew]
  | readOp tid hh bufLen =>
      have htid : ¬ tid = B := by
        simp only [opThread, ne_eq, Option.some.injEq] at hop
        exact hop
      cases hcase : alookup hh s.live with
      | none => simp [step, http_read_response, hcase, setError, alookup, htid]
      | some r => simp [step, http_read_response, hcase, withLive]
  | freeOp tid hh =>
      have htid : ¬ tid = B := by
        simp only [opThread, ne_eq, Option.some.injEq] at hop
        exact hop
      cases hcase : alookup hh s.live with
      | none => simp [step, http_free_response, hcase, setError, alookup, htid]
      | some r => simp [step, http_free_response, hcase, withLive]
  | getErrOp tid bufLen => rfl
  | shutdownOp => rfl

theorem run_errors_other (env : HttpEnv) (B : Nat) :
    ∀ (ops : List Op) (s : ClientState),
      (∀ op ∈ ops, opThread op ≠ some B) →
      alookup B (run env s ops).errors = alookup B s.errors := by
  intro ops
  induction ops with
  | nil =>
      intro s _
      rfl
  | cons op rest ih =>
      intro s hops
      have h1 : opThread op ≠ some B := hops op (by simp)
      have h2 : ∀ op2 ∈ rest, opThread op2 ≠ some B := by
        intro op2 hm
        exact hops op2 (by simp [hm])
      calc alookup B (run env s (op :: rest)).errors
          = alookup B (step env s op).errors := ih (step env s op) h2
        _ = alookup B s.errors := step_errors_other env s op B h1

theorem get_last_error_congr {B : Nat} {s1 s2 : ClientState}
    (h : alookup B s1.errors = alookup B s2.errors) (cap : Int) :
    http_get_last_error B cap s1 = http_get_last_error B cap s2 := by
  unfold http_get_last_error
  rw [h]

theorem handleState_live_iff (h2 : Nat) (s : ClientState) :
    handleState h2 s = HState.live ↔ (alookup h2 s.live).isSome := by
  constructor
  · intro hl
    by_contra hns
    unfold handleState at hl
    rw [if_neg hns] at hl
    split at hl
    · exact absurd hl (by decide)
    · exact absurd hl (by decide)
  · intro hs
    unfold handleState
    rw [if_pos hs]

theorem handleState_freed_iff (h2 : Nat) (s : ClientState) :
    handleState h2 s = HState.freed ↔
      ((alookup h2 s.live).isSome = false ∧ h2 < s.nextHandle) := by
  unfold handleState
  by_cases hs : (alookup h2 s.live).isSome
  · rw [if_pos hs]
    simp [hs]
  · rw [if_neg hs]
    simp only [Bool.not_eq_true] at hs
    by_cases hlt : h2 < s.nextHandle
    · rw [if_pos hlt]
      simp [hs, hlt]
    · rw [if_neg hlt]
      simp [hs, hlt]

theorem handleState_unissued_iff (h2 : Nat) (s : ClientState) :
    handleState h2 s = HState.unissued ↔
      ((alookup h2 s.live).isSome = false ∧ s.nextHandle ≤ h2) := by
  unfold handleState
  by_cases hs : (alookup h2 s.live).isSome
  · rw [if_pos hs]
    simp [hs]
  · rw [if_neg hs]
    simp only [Bool.not_eq_true] at hs
    by_cases hlt : h2 < s.nextHandle
    · rw [if_pos hlt]
      constructor
      · intro hcontra
        exact absurd hcontra (by decide)
      · intro hcontra
        exact absurd hcontra.2 (by omega)
    · rw [if_neg hlt]
      simp [hs]
      omega

theorem handleState_eq_of_frame {s s2 : ClientState} (hlive : s2.live = s.live)
    (hnext : s2.nextHandle = s.nextHandle) (h2 : Nat) :
    handleState h2 s2 = handleState h2 s := by
  unfold handleState
  rw [hlive, hnext]

theorem WF_step (env : HttpEnv) (s : ClientState) (op : Op) (hWF : WF s) :
    WF (step env s op) := by
  obtain ⟨hbound, hnd, hsd⟩ := hWF
  cases op with
  | verb tid m url headersJson bodyPtr bodyLen timeoutMs =>
      rcases dispatch_cases env tid m url headersJson bodyPtr bodyLen timeoutMs s with
        ⟨code, msg, hc, hm, heq⟩ | ⟨st, rb, hs, heq⟩
      · have hst : step env s
            (Op.verb tid m url headersJson bodyPtr bodyLen timeoutMs)
              = setError tid msg s := by
          simp [step, heq]
        rw [hst]
        exact ⟨hbound, hnd, hsd⟩
      · have hst : step env s
            (Op.verb tid m url headersJson bodyPtr bodyLen timeoutMs)
              = bindNew s st rb := by
          simp [step, heq]
        rw [hst]
        have hfresh : s.nextHandle ∉ s.live.map Prod.fst := by
          intro hmem
          exact absurd (hbound _ hmem) (by omega)
        refine ⟨?_, ?_, ?_⟩
        · show ∀ k ∈ ((s.nextHandle, (⟨st, rb, 0⟩ : HttpResponse)) :: s.live).map Prod.fst,
            k < s.nextHandle + 1
          simp only [List.map_cons, List.mem_cons]
          intro k hk
          rcases hk with hk | hk
          · omega
          · exact Nat.lt_succ_of_lt (hbound k hk)
        · show (((s.nextHandle, (⟨st, rb, 0⟩ : HttpResponse)) :: s.live).map Prod.fst).Nodup
          simp only [List.map_cons, List.nodup_cons]
          exact ⟨hfresh, hnd⟩
        · show s.isShutdown = true → _
          rw [hs]
          intro hcontra
          exact absurd hcontra (by decide)
  | readOp tid hh bufLen =>
      cases hcase : alookup hh s.live with
      | none =>
          have hst : step env s (Op.readOp tid hh bufLen)
              = setError tid "invalid handle" s := by
            simp [step, http_read_response, hcase]
          rw [hst]
          exact ⟨hbound, hnd, hsd⟩
      | some r =>
          have hst : step env s (Op.readOp tid hh bufLen)
              = withLive s (aupdate hh
                  (withCursor r
                    (r.cursor + min (Int.toNat bufLen) (r.body.length - r.cursor)))
                  s.live) := by
            simp [step, http_read_response, hcase]
          rw [hst]
          refine ⟨?_, ?_, ?_⟩
          · show ∀ k ∈ (aupdate hh
                (withCursor r
                  (r.cursor + min (Int.toNat bufLen) (r.body.length - r.cursor)))
                s.live).map Prod.fst, k < s.nextHandle
            rw [aupdate_map_fst]
            exact hbound
          · show ((aupdate hh
                (withCursor r
                  (r.cursor + min (Int.toNat bufLen) (r.body.length - r.cursor)))
                s.live).map Prod.fst).Nodup
            rw [aupdate_map_fst]
            exact hnd
          · show s.isShutdown = true → _
            intro hsdt
            exfalso
            have hempty := hsd hsdt
            rw [hempty] at hcase
            simp [alookup] at hcase
  | freeOp tid hh =>
      cases hcase : alookup hh s.live with
      | none =>
          have hst : step env s (Op.freeOp tid hh)
              = setError tid "invalid handle" s := by
            simp [step, http_free_response, hcase]
          rw [hst]
          exact ⟨hbound, hnd, hsd⟩
      | some r =>
          have hst : step env s (Op.freeOp tid hh)
              = withLive s (aremove hh s.live) := by
            simp [step, http_free_response, hcase]
          rw [hst]
          have hsub : List.Sublist ((aremove hh s.live).map Prod.fst)
              (s.live.map Prod.fst) :=
            List.Sublist.map Prod.fst (aremove_sublist hh s.live)
          refine ⟨?_, ?_, ?_⟩
          · show ∀ k ∈ (aremove hh s.live).map Prod.fst, k < s.nextHandle
            intro k hk
            exact hbound k (hsub.subset hk)
          · show ((aremove hh s.live).map Prod.fst).Nodup
            exact hnd.sublist hsub
          · show s.isShutdown = true → _
            intro hsdt
            exfalso
            have hempty := hsd hsdt
            rw [hempty] at hcase
            simp [alookup] at hcase
  | getErrOp tid bufLen => exact ⟨hbound, hnd, hsd⟩
  | shutdownOp =>
      refine ⟨?_, ?_, ?_⟩ <;> simp [step, http_shutdown]

theorem isSome_false_eq_none {α : Type} {o : Option α} (h : o.isSome = false) :
    o = none := by
  cases o
  · rfl
  · simp at h

/-- Claim C10: because `buf_len` is a signed int, `http_read_response` can be
called with a zero or negative buffer length on a live handle; every such call
is total: it copies no bytes, does not advance the cursor (the state is left
entirely unchanged), and returns the non-positive result 0 rather than
exhibiting undefined behaviour. -/
theorem claim_C10 (tid h : Nat) (bufLen : Int) (s : ClientState)
    (r : HttpResponse) (hl : alookup h s.live = some r) (hcap : bufLen ≤ 0) :
    http_read_response tid h bufLen s = (0, [], s) := by
  have h0 : Int.toNat bufLen = 0 := by omega
  have hmin : min (Int.toNat bufLen) (r.body.length - r.cursor) = 0 := by
    rw [h0]
    simp
  rw [read_live tid hl bufLen, hmin]
  have h3 : withCursor r (r.cursor + 0) = r := rfl
  rw [h3, aupdate_self hl]
  exact rfl

theorem claim_C10_witness :
    alookup 0 sLive.live = some ⟨200, [104, 105], 0⟩ ∧ (-3 : Int) ≤ 0 ∧
    http_read_response 7 0 (-3) sLive = (0, [], sLive) :=
  ⟨by decide, by decide, claim_C10 7 0 (-3) sLive ⟨200, [104, 105], 0⟩
    (by decide) (by decide)⟩

/-- Claim C8: `http_get_last_error` copies the calling thread's most recent
message into the caller buffer, truncating to the capacity while leaving room
for the terminator, and returns the byte count written, or the full required
length (message length plus terminator) when the buffer was too small; with
no recorded error for the calling thread it reports an empty result. -/
theorem claim_C8 (tid : Nat) (cap : Int) (s : ClientState) :
    (alookup tid s.errors = none → http_get_last_error tid cap s = (0, [])) ∧
    (∀ m, alookup tid s.errors = some m →
      (((m.length + 1 : Nat) : Int) ≤ cap →
        http_get_last_error tid cap s = ((m.length : Int), m.toList) ∧
        (http_get_last_error tid cap s).2.length = m.length) ∧
      (cap < ((m.length + 1 : Nat) : Int) →
        http_get_last_error tid cap s
          = (((m.length + 1 : Nat) : Int), m.toList.take (Int.toNat cap - 1)) ∧
        (http_get_last_error tid cap s).2.length ≤ Int.toNat cap - 1)) := by
  constructor
  · intro hnone
    simp [http_get_last_error, hnone]
  · intro m hm
    constructor
    · intro hfit
      have hfit2 : (m.length : Int) + 1 ≤ cap := by omega
      have heq : http_get_last_error tid cap s = ((m.length : Int), m.toList) := by
        simp [http_get_last_error, hm, hfit2]
      refine ⟨heq, ?_⟩
      rw [heq]
      exact rfl
    · intro hsmall
      have hnot : ¬ ((m.length : Int) + 1 ≤ cap) := by omega
      have heq : http_get_last_error tid cap s
          = (((m.length + 1 : Nat) : Int), m.toList.take (Int.toNat cap - 1)) := by
        simp [http_get_last_error, hm, hnot]
      refine ⟨heq, ?_⟩
      rw [heq]
      exact List.length_take_le _ _

theorem claim_C8_witness :
    alookup 3 sErr.errors = some "boom" ∧
    ((("boom".length + 1 : Nat) : Int) ≤ 10) ∧
    http_get_last_error 3 10 sErr = (("boom".length : Int), "boom".toList) ∧
    (http_get_last_error 3 10 sErr).2.length = "boom".length :=
  ⟨by decide, by decide,
   (((claim_C8 3 10 sErr).2 "boom" (by decide)).1 (by decide)).1,
   (((claim_C8 3 10 sErr).2 "boom" (by decide)).1 (by decide)).2⟩

/-- Claim C3: for every handle value that is not currently live (never
issued, already freed, or invalidated by shutdown), `http_read_response` and
`http_free_response` fail with the invalid-handle condition and leave the
registry and the response store (live bindings, allocator, shutdown flag)
unchanged; and of two successive frees of the same live handle, the first
succeeds and the second reports invalid-handle. -/
theorem claim_C3 (tid h : Nat) (cap : Int) (s : ClientState)
    (hnd : (s.live.map Prod.fst).Nodup)
    (hdead : alookup h s.live = none) :
    (http_read_response tid h cap s).1 = READ_ERR_INVALID_HANDLE ∧
    (http_read_response tid h cap s).2.1 = [] ∧
    (http_read_response tid h cap s).2.2.live = s.live ∧
    (http_read_response tid h cap s).2.2.nextHandle = s.nextHandle ∧
    (http_read_response tid h cap s).2.2.isShutdown = s.isShutdown ∧
    (http_free_response tid h s).1 = ERR_INVALID_HANDLE ∧
    (http_free_response tid h s).2.live = s.live ∧
    (http_free_response tid h s).2.nextHandle = s.nextHandle ∧
    (http_free_response tid h s).2.isShutdown = s.isShutdown ∧
    (∀ h2 r2, alookup h2 s.live = some r2 →
      (http_free_response tid h2 s).1 = OK ∧
      (http_free_response tid h2 (http_free_response tid h2 s).2).1
          = ERR_INVALID_HANDLE) := by
  have hread : http_read_response tid h cap s
      = (READ_ERR_INVALID_HANDLE, [], setError tid "invalid handle" s) := by
    simp [http_read_response, hdead]
  have hfree : http_free_response tid h s
      = (ERR_INVALID_HANDLE, setError tid "invalid handle" s) := by
    simp [http_free_response, hdead]
  refine ⟨?_, ?_, ?_, ?_, ?_, ?_, ?_, ?_, ?_, ?_⟩
  · simp [hread]
  · simp [hread]
  · simp [hread]
  · simp [hread]
  · simp [hread]
  · simp [hfree]
  · simp [hfree]
  · simp [hfree]
  · simp [hfree]
  · intro h2 r2 hl2
    have h1 : http_free_response tid h2 s = (OK, withLive s (aremove h2 s.live)) := by
      simp [http_free_response, hl2]
    have h2dead : alookup h2 (aremove h2 s.live) = none := alookup_aremove_self hnd
    constructor
    · simp [h1]
    · rw [h1]
      simp [http_free_response, h2dead]

theorem claim_C3_witness :
    (sLive.live.map Prod.fst).Nodup ∧
    alookup 5 sLive.live = none ∧
    ((http_read_response 1 5 4 sLive).1 = READ_ERR_INVALID_HANDLE ∧
     (http_read_response 1 5 4 sLive).2.1 = [] ∧
     (http_read_response 1 5 4 sLive).2.2.live = sLive.live ∧
     (http_read_response 1 5 4 sLive).2.2.nextHandle = sLive.nextHandle ∧
     (http_read_response 1 5 4 sLive).2.2.isShutdown = sLive.isShutdown ∧
     (http_free_response 1 5 sLive).1 = ERR_INVALID_HANDLE ∧
     (http_free_response 1 5 sLive).2.live = sLive.live ∧
     (http_free_response 1 5 sLive).2.nextHandle = sLive.nextHandle ∧
     (http_free_response 1 5 sLive).2.isShutdown = sLive.isShutdown ∧
     (∀ h2 r2, alookup h2 sLive.live = some r2 →
       (http_free_response 1 h2 sLive).1 = OK ∧
       (http_free_response 1 h2 (http_free_response 1 h2 sLive).2).1
           = ERR_INVALID_HANDLE)) :=
  ⟨by decide, by decide, claim_C3 1 5 4 sLive (by decide) (by decide)⟩

/-- Claim C9: registry mutations are atomic operations of the model, so two
threads racing to free the same live handle are the two orders of two atomic
frees; in either interleaving exactly one call succeeds and the other
reports the invalid-handle condition, the backing storage is released exactly
once (the second free leaves the registry untouched), and the registry stays
uncorrupted (keys stay distinct). -/
theorem claim_C9 (tidA tidB h : Nat) (s : ClientState) (r : HttpResponse)
    (hnd : (s.live.map Prod.fst).Nodup) (hl : alookup h s.live = some r) :
    (http_free_response tidA h s).1 = OK ∧
    (http_free_response tidA h s).2.live = aremove h s.live ∧
    alookup h (http_free_response tidA h s).2.live = none ∧
    (http_free_response tidB h (http_free_response tidA h s).2).1
        = ERR_INVALID_HANDLE ∧
    (http_free_response tidB h (http_free_response tidA h s).2).2.live
        = (http_free_response tidA h s).2.live ∧
    ((http_free_response tidA h s).2.live.map Prod.fst).Nodup := by
  have h1 : http_free_response tidA h s = (OK, withLive s (aremove h s.live)) := by
    simp [http_free_response, hl]
  have hdead : alookup h (aremove h s.live) = none := alookup_aremove_self hnd
  refine ⟨?_, ?_, ?_, ?_, ?_, ?_⟩
  · simp [h1]
  · simp [h1]
  · simp [h1, hdead]
  · rw [h1]
    simp [http_free_response, hdead]
  · rw [h1]
    simp [http_free_response, hdead]
  · simp only [h1]
    show ((aremove h s.live).map Prod.fst).Nodup
    exact hnd.sublist (List.Sublist.map Prod.fst (aremove_sublist h s.live))

theorem claim_C9_witness :
    (sLive.live.map Prod.fst).Nodup ∧
    alookup 0 sLive.live = some ⟨200, [104, 105], 0⟩ ∧
    ((http_free_response 1 0 sLive).1 = OK ∧
     (http_free_response 1 0 sLive).2.live = aremove 0 sLive.live ∧
     alookup 0 (http_free_response 1 0 sLive).2.live = none ∧
     (http_free_response 2 0 (http_free_response 1 0 sLive).2).1
         = ERR_INVALID_HANDLE ∧
     (http_free_response 2 0 (http_free_response 1 0 sLive).2).2.live
         = (http_free_response 1 0 sLive).2.live ∧
     ((http_free_response 1 0 sLive).2.live.map Prod.fst).Nodup) :=
  ⟨by decide, by decide,
   claim_C9 1 2 0 sLive ⟨200, [104, 105], 0⟩ (by decide) (by decide)⟩

/-- Claim C2: for every live handle whose cursor is fresh (at zero) and every
chunk capacity N > 0, the concatenation of the byte chunks produced by
repeated reads of capacity N until exhaustion equals the full response body,
which is also exactly what a single read with capacity at least the body
length returns on the same fresh handle: chunking is observation
transparent. -/
theorem claim_C2 (tid h : Nat) (cap big : Int) (fuel : Nat) (s : ClientState)
    (r : HttpResponse) (hl : alookup h s.live = some r) (hfresh : r.cursor = 0)
    (hcap : 0 < cap) (hfuel : r.body.length ≤ fuel)
    (hbig : (r.body.length : Int) ≤ big) :
    ((readLoop tid h cap fuel s).1.map Prod.snd).flatten = r.body ∧
    (http_read_response tid h big s).2.1 = r.body ∧
    (http_read_response tid h big s).1 = (r.body.length : Int) := by
  obtain ⟨_, _, hjoin, _⟩ :=
    readLoop_total tid h cap hcap fuel s r hl (by omega) (by omega)
  have hlenN : r.body.length ≤ Int.toNat big := by omega
  have hmin : min (Int.toNat big) (r.body.length - r.cursor) = r.body.length := by
    rw [hfresh, Nat.sub_zero]
    exact min_eq_right hlenN
  refine ⟨?_, ?_, ?_⟩
  · rw [hjoin, hfresh, List.drop_zero]
  · rw [read_live tid hl big]
    dsimp only
    rw [hmin, hfresh, List.drop_zero]
    exact List.take_length r.body
  · rw [read_live tid hl big]
    dsimp only
    rw [hmin]

theorem claim_C2_witness :
    alookup 0 sLive.live = some ⟨200, [104, 105], 0⟩ ∧
    (⟨200, [104, 105], 0⟩ : HttpResponse).cursor = 0 ∧
    (0 : Int) < 1 ∧
    (⟨200, [104, 105], 0⟩ : HttpResponse).body.length ≤ 2 ∧
    (((⟨200, [104, 105], 0⟩ : HttpResponse).body.length : Int) ≤ 5) ∧
    (((readLoop 9 0 1 2 sLive).1.map Prod.snd).flatten
        = (⟨200, [104, 105], 0⟩ : HttpResponse).body ∧
     (http_read_response 9 0 5 sLive).2.1
        = (⟨200, [104, 105], 0⟩ : HttpResponse).body ∧
     (http_read_response 9 0 5 sLive).1
        = ((⟨200, [104, 105], 0⟩ : HttpResponse).body.length : Int)) :=
  ⟨by decide, by decide, by decide, by decide, by decide,
   claim_C2 9 0 1 5 2 sLive ⟨200, [104, 105], 0⟩ (by decide) (by decide)
     (by decide) (by decide) (by decide)⟩

/-- Claim C1: for every successful verb call (all five entry points are the
shared dispatch facade applied to their verb), the value written to the
response-length output slot equals the total number of bytes retrievable from
the returned handle by repeated `http_read_response` calls: the sum of all
non-zero read return values equals the reported length, every read in that
sequence is positive, and once the reads are exhausted every further read on
the handle returns 0 and leaves the state unchanged (so it keeps returning 0
until the handle is freed). -/
theorem claim_C1 (env : HttpEnv) (tid tid2 : Nat) (m : Method)
    (url headersJson : String) (bodyPtr : Option (List Nat))
    (bodyLen timeoutMs cap : Int) (fuel : Nat) (s s2 : ClientState)
    (out : DispatchOut)
    (hd : dispatch env tid m url headersJson bodyPtr bodyLen timeoutMs s
            = (OK, some out, s2))
    (hcap : 0 < cap) (hfuel : out.responseLen ≤ (fuel : Int)) :
    ((readLoop tid2 out.handle cap fuel s2).1.map Prod.fst).sum
        = out.responseLen ∧
    (∀ c ∈ (readLoop tid2 out.handle cap fuel s2).1.map Prod.fst, 0 < c) ∧
    (∀ cap2, http_read_response tid2 out.handle cap2
        (readLoop tid2 out.handle cap fuel s2).2
      = (0, [], (readLoop tid2 out.handle cap fuel s2).2)) := by
  obtain ⟨st, rbody, hout, hs2, hsf⟩ := dispatch_ok hd
  have hhandle : out.handle = s.nextHandle := by rw [hout]
  have hlen : out.responseLen = (rbody.length : Int) := by rw [hout]
  have hl : alookup out.handle s2.live = some ⟨st, rbody, 0⟩ := by
    rw [hs2, hhandle]
    simp [alookup]
  have hfuel2 : rbody.length - 0 ≤ fuel := by
    rw [hlen] at hfuel
    omega
  obtain ⟨hsum, hpos, hjoin, hstate⟩ :=
    readLoop_total tid2 out.handle cap hcap fuel s2 ⟨st, rbody, 0⟩ hl
      (Nat.zero_le _) hfuel2
  refine ⟨?_, hpos, ?_⟩
  · rw [hsum, hlen]
    show ((rbody.length - 0 : Nat) : Int) = (rbody.length : Int)
    omega
  · intro cap2
    have hlF : alookup out.handle (readLoop tid2 out.handle cap fuel s2).2.live
        = some ⟨st, rbody, rbody.length⟩ := by
      rw [hstate]
      exact alookup_aupdate_self _ hl
    exact read_at_end tid2 hlF rfl cap2

theorem claim_C1_witness :
    dispatch envT 0 Method.GET "http://e" "" none 0 1000 s0
        = (OK, some ⟨0, 2, 200⟩, sLive) ∧
    (0 : Int) < 1 ∧
    (DispatchOut.mk 0 2 200).responseLen ≤ ((2 : Nat) : Int) ∧
    (((readLoop 0 (DispatchOut.mk 0 2 200).handle 1 2 sLive).1.map Prod.fst).sum
        = (DispatchOut.mk 0 2 200).responseLen ∧
     (∀ c ∈ (readLoop 0 (DispatchOut.mk 0 2 200).handle 1 2 sLive).1.map
         Prod.fst, 0 < c) ∧
     (∀ cap2, http_read_response 0 (DispatchOut.mk 0 2 200).handle cap2
          (readLoop 0 (DispatchOut.mk 0 2 200).handle 1 2 sLive).2
        = (0, [], (readLoop 0 (DispatchOut.mk 0 2 200).handle 1 2 sLive).2))) :=
  ⟨by decide, by decide, by decide,
   claim_C1 envT 0 0 Method.GET "http://e" "" none 0 1000 1 2 s0 sLive
     ⟨0, 2, 200⟩ (by decide) (by decide) (by decide)⟩

/-- Claim C4: every verb call that fails, on any failure path (the shutdown
check, local validation such as a null body pointer with nonzero length on
the body verbs, transport failure, timeout), returns a nonzero code, leaves
the output slots unwritten (the model returns no output record), allocates no
handle (registry and allocator unchanged), and records a non-empty
human-readable message in the calling thread's error slot; in particular
`http_post` with a null body pointer and body length 5 on a non-shut-down
state returns the invalid-argument code with no handle and a non-empty
message. -/
theorem claim_C4 (env : HttpEnv) (tid : Nat) (m : Method)
    (url headersJson : String) (bodyPtr : Option (List Nat))
    (bodyLen timeoutMs : Int) (s : ClientState) :
    (∀ code out s2,
      dispatch env tid m url headersJson bodyPtr bodyLen timeoutMs s
          = (code, out, s2) →
      code ≠ OK →
      out = none ∧ s2.live = s.live ∧ s2.nextHandle = s.nextHandle ∧
      ∃ msg, msg ≠ "" ∧ alookup tid s2.errors = some msg) ∧
    (s.isShutdown = false →
      (dispatch env tid Method.POST url headersJson none 5 timeoutMs s).1
          = ERR_INVALID_ARGUMENT ∧
      (dispatch env tid Method.POST url headersJson none 5 timeoutMs s).2.1
          = none ∧
      ∃ msg, msg ≠ "" ∧
        alookup tid
          (dispatch env tid Method.POST url headersJson none 5 timeoutMs s).2.2.errors
          = some msg) := by
  constructor
  · intro code out s2 heq hne
    rcases dispatch_cases env tid m url headersJson bodyPtr bodyLen timeoutMs s with
      ⟨c2, msg, hc2, hm, hd2⟩ | ⟨st, rb, hsf, hd2⟩
    · rw [heq] at hd2
      simp only [Prod.mk.injEq] at hd2
      obtain ⟨hcode, hout, hs2⟩ := hd2
      refine ⟨hout, ?_, ?_, msg, hm, ?_⟩
      · rw [hs2]
        simp
      · rw [hs2]
        simp
      · rw [hs2]
        simp [alookup]
    · rw [heq] at hd2
      simp only [Prod.mk.injEq] at hd2
      exact absurd hd2.1 hne
  · intro hsf
    have hcb : checkBody Method.POST none 5 = none := by decide
    by_cases hu : url = "" ∨ env.validUrl url = false
    · refine ⟨?_, ?_, "invalid url", by decide, ?_⟩ <;>
        simp [dispatch, hsf, hu, alookup]
    · by_cases hhj : headersJson ≠ "" ∧ env.validHeaders headersJson = false
      · refine ⟨?_, ?_, "invalid headers json", by decide, ?_⟩ <;>
          simp [dispatch, hsf, hu, hhj, alookup]
      · refine ⟨?_, ?_, "invalid body argument", by decide, ?_⟩ <;>
          simp [dispatch, hsf, hu, hhj, hcb, alookup]

theorem claim_C4_witness :
    s0.isShutdown = false ∧
    ((dispatch envT 0 Method.POST "http://e" "" none 5 1000 s0).1
        = ERR_INVALID_ARGUMENT ∧
     (dispatch envT 0 Method.POST "http://e" "" none 5 1000 s0).2.1 = none ∧
     ∃ msg, msg ≠ "" ∧
       alookup 0
         (dispatch envT 0 Method.POST "http://e" "" none 5 1000 s0).2.2.errors
         = some msg) :=
  ⟨rfl, (claim_C4 envT 0 Method.POST "http://e" "" none 5 1000 s0).2 rfl⟩

/-- Claim C6: after `http_shutdown` has been called, and after any further
sequence of operations, every verb call fails with the dedicated shut-down
code, writes no output slots, touches no registry state, and never performs a
request (its result does not depend on the transport environment at all);
the shutdown flag never clears, the registry stays empty, and no handle is
ever live again: shutdown is terminal. -/
theorem claim_C6 (env env2 : HttpEnv) (sInit : ClientState) (ops : List Op)
    (tid : Nat) (m : Method) (url headersJson : String)
    (bodyPtr : Option (List Nat)) (bodyLen timeoutMs : Int) :
    (run env (http_shutdown sInit) ops).isShutdown = true ∧
    (run env (http_shutdown sInit) ops).live = [] ∧
    (dispatch env2 tid m url headersJson bodyPtr bodyLen timeoutMs
        (run env (http_shutdown sInit) ops)).1 = ERR_SHUTDOWN ∧
    (dispatch env2 tid m url headersJson bodyPtr bodyLen timeoutMs
        (run env (http_shutdown sInit) ops)).2.1 = none ∧
    (dispatch env2 tid m url headersJson bodyPtr bodyLen timeoutMs
        (run env (http_shutdown sInit) ops)).2.2.live
        = (run env (http_shutdown sInit) ops).live ∧
    (∀ env3, dispatch env2 tid m url headersJson bodyPtr bodyLen timeoutMs
          (run env (http_shutdown sInit) ops)
        = dispatch env3 tid m url headersJson bodyPtr bodyLen timeoutMs
          (run env (http_shutdown sInit) ops)) ∧
    (∀ h2, handleState h2 (run env (http_shutdown sInit) ops) ≠ HState.live) := by
  obtain ⟨h1, h2⟩ := run_shutdown_stable env ops (http_shutdown sInit) rfl rfl
  have hd : ∀ env3 : HttpEnv,
      dispatch env3 tid m url headersJson bodyPtr bodyLen timeoutMs
          (run env (http_shutdown sInit) ops)
        = (ERR_SHUTDOWN, none,
           setError tid "client has been shut down"
             (run env (http_shutdown sInit) ops)) := by
    intro env3
    simp [dispatch, h1]
  refine ⟨h1, h2, ?_, ?_, ?_, ?_, ?_⟩
  · simp [hd env2]
  · simp [hd env2]
  · simp [hd env2]
  · intro env3
    rw [hd env2, hd env3]
  · intro h3
    rw [Ne, handleState_live_iff, h2]
    simp [alookup]

/-- Claim C7: error state is isolated per calling thread: after any sequence
of operations none of which is issued by thread B, the error slot thread B
observes is exactly what it was before the sequence, so `http_get_last_error`
called by B returns identical results whether or not the other threads'
failing (or succeeding) calls occurred; in particular each thread retrieves
only messages recorded by its own calls. -/
theorem claim_C7 (env : HttpEnv) (s : ClientState) (ops : List Op) (B : Nat)
    (hB : ∀ op ∈ ops, opThread op ≠ some B) :
    alookup B (run env s ops).errors = alookup B s.errors ∧
    (∀ cap, http_get_last_error B cap (run env s ops)
        = http_get_last_error B cap s) := by
  have h1 := run_errors_other env B ops s hB
  exact ⟨h1, fun cap => get_last_error_congr h1 cap⟩

theorem claim_C7_witness :
    (∀ op ∈ [Op.verb 1 Method.POST "u" "" none 5 (-1), Op.freeOp 2 0,
        Op.shutdownOp], opThread op ≠ some 3) ∧
    (alookup 3 (run envT sErr [Op.verb 1 Method.POST "u" "" none 5 (-1),
        Op.freeOp 2 0, Op.shutdownOp]).errors = alookup 3 sErr.errors ∧
     (∀ cap, http_get_last_error 3 cap
          (run envT sErr [Op.verb 1 Method.POST "u" "" none 5 (-1),
            Op.freeOp 2 0, Op.shutdownOp])
        = http_get_last_error 3 cap sErr)) :=
  ⟨by decide,
   claim_C7 envT sErr
     [Op.verb 1 Method.POST "u" "" none 5 (-1), Op.freeOp 2 0, Op.shutdownOp]
     3 (by decide)⟩

/-- Claim C5: every handle value is always in exactly one of the three
lifecycle states (the classifier `handleState` is a total function, and the
three states are characterised by mutually exclusive registry predicates, the
live one recorded here); every operation preserves the registry invariant,
and the only transitions are unissued to live (only via a successful verb
call, issuing exactly the allocator value, which collides with no live
handle) and live to freed (only via `http_free_response` on that handle or
`http_shutdown`); freed is terminal, and a handle that stays live keeps the
very same response (status and body), never being rebound. -/
theorem claim_C5 (env : HttpEnv) (s : ClientState) (op : Op) (hWF : WF s) :
    WF (step env s op) ∧
    (∀ h2 : Nat,
      (handleState h2 s = HState.live ∨ handleState h2 s = HState.freed ∨
        handleState h2 s = HState.unissued) ∧
      (handleState h2 s = HState.live ↔ (alookup h2 s.live).isSome) ∧
      (handleState h2 s = HState.freed →
        handleState h2 (step env s op) = HState.freed) ∧
      (handleState h2 s = HState.unissued →
        handleState h2 (step env s op) = HState.unissued ∨
        (handleState h2 (step env s op) = HState.live ∧
          h2 = s.nextHandle ∧ alookup h2 s.live = none ∧
          ∃ tid m2 url2 headersJson2 bodyPtr2 bodyLen2 timeoutMs2,
            op = Op.verb tid m2 url2 headersJson2 bodyPtr2 bodyLen2 timeoutMs2 ∧
            (dispatch env tid m2 url2 headersJson2 bodyPtr2 bodyLen2 timeoutMs2
              s).1 = OK)) ∧
      (handleState h2 s = HState.live →
        handleState h2 (step env s op) = HState.live ∨
        (handleState h2 (step env s op) = HState.freed ∧
          ((∃ tid, op = Op.freeOp tid h2) ∨ op = Op.shutdownOp))) ∧
      (∀ r r2, alookup h2 s.live = some r →
        alookup h2 (step env s op).live = some r2 →
        r2.status = r.status ∧ r2.body = r.body)) := by
  obtain ⟨hbound, hnd, hsd⟩ := hWF
  have hmaster :
      ((step env s op).live = s.live ∧
        (step env s op).nextHandle = s.nextHandle) ∨
      (∃ hh rr n, alookup hh s.live = some rr ∧
        (step env s op).live = aupdate hh (withCursor rr n) s.live ∧
        (step env s op).nextHandle = s.nextHandle) ∨
      (∃ tid m2 url2 hj2 bp2 bl2 t2 st rb,
        op = Op.verb tid m2 url2 hj2 bp2 bl2 t2 ∧
        (dispatch env tid m2 url2 hj2 bp2 bl2 t2 s).1 = OK ∧
        (step env s op).live
          = (s.nextHandle, (⟨st, rb, 0⟩ : HttpResponse)) :: s.live ∧
        (step env s op).nextHandle = s.nextHandle + 1) ∨
      (∃ tid hh rr, op = Op.freeOp tid hh ∧ alookup hh s.live = some rr ∧
        (step env s op).live = aremove hh s.live ∧
        (step env s op).nextHandle = s.nextHandle) ∨
      (op = Op.shutdownOp ∧ (step env s op).live = [] ∧
        (step env s op).nextHandle = s.nextHandle) := by
    cases op with
    | verb tid m2 url2 hj2 bp2 bl2 t2 =>
        rcases dispatch_cases env tid m2 url2 hj2 bp2 bl2 t2 s with
          ⟨code, msg, hc, hm, heq⟩ | ⟨st, rb, hsf, heq⟩
        · exact Or.inl (by simp [step, heq])
        · refine Or.inr (Or.inr (Or.inl
            ⟨tid, m2, url2, hj2, bp2, bl2, t2, st, rb, rfl, ?_, ?_, ?_⟩))
          · simp [heq]
          · simp [step, heq]
          · simp [step, heq]
    | readOp tid hh bl =>
        cases hcase : alookup hh s.live with
        | none => exact Or.inl (by simp [step, http_read_response, hcase])
        | some rr =>
            refine Or.inr (Or.inl ⟨hh, rr,
              rr.cursor + min (Int.toNat bl) (rr.body.length - rr.cursor),
              hcase, ?_, ?_⟩)
            · simp [step, http_read_response, hcase]
            · simp [step, http_read_response, hcase]
    | freeOp tid hh =>
        cases hcase : alookup hh s.live with
        | none => exact Or.inl (by simp [step, http_free_response, hcase])
        | some rr =>
            refine Or.inr (Or.inr (Or.inr (Or.inl
              ⟨tid, hh, rr, rfl, hcase, ?_, ?_⟩)))
            · simp [step, http_free_response, hcase]
            · simp [step, http_free_response, hcase]
    | getErrOp tid bl => exact Or.inl ⟨rfl, rfl⟩
    | shutdownOp => exact Or.inr (Or.inr (Or.inr (Or.inr ⟨rfl, rfl, rfl⟩)))
  refine ⟨WF_step env s op ⟨hbound, hnd, hsd⟩, ?_⟩
  intro h2
  refine ⟨?_, handleState_live_iff h2 s, ?_, ?_, ?_, ?_⟩
  · cases hq : handleState h2 s with
    | unissued => exact Or.inr (Or.inr rfl)
    | live => exact Or.inl rfl
    | freed => exact Or.inr (Or.inl rfl)
  · intro hfr
    rw [handleState_freed_iff] at hfr
    obtain ⟨hns, hlt⟩ := hfr
    have hnone : alookup h2 s.live = none := isSome_false_eq_none hns
    rw [handleState_freed_iff]
    rcases hmaster with ⟨hl, hn⟩ | ⟨hh, rr, n, hcase, hl, hn⟩ |
      ⟨tid, m2, u2, hj2, bp2, bl2, t2, st, rb, hop, hOK, hl, hn⟩ |
      ⟨tid, hh, rr, hop, hcase, hl, hn⟩ | ⟨hop, hl, hn⟩
    · rw [hl, hn]
      exact ⟨hns, hlt⟩
    · rw [hl, hn]
      have hne : h2 ≠ hh := by
        intro hEq
        rw [hEq, hcase] at hnone
        simp at hnone
      rw [alookup_aupdate_ne hne]
      exact ⟨hns, hlt⟩
    · rw [hl, hn]
      have hne : ¬ (s.nextHandle = h2) := by omega
      constructor
      · simp [alookup, hne, hnone]
      · omega
    · rw [hl, hn]
      have hne : h2 ≠ hh := by
        intro hEq
        rw [hEq, hcase] at hnone
        simp at hnone
      rw [alookup_aremove_ne hne]
      exact ⟨hns, hlt⟩
    · rw [hl, hn]
      refine ⟨?_, hlt⟩
      simp [alookup]
  · intro hun
    rw [handleState_unissued_iff] at hun
    obtain ⟨hns, hge⟩ := hun
    have hnone : alookup h2 s.live = none := isSome_false_eq_none hns
    rcases hmaster with ⟨hl, hn⟩ | ⟨hh, rr, n, hcase, hl, hn⟩ |
      ⟨tid, m2, u2, hj2, bp2, bl2, t2, st, rb, hop, hOK, hl, hn⟩ |
      ⟨tid, hh, rr, hop, hcase, hl, hn⟩ | ⟨hop, hl, hn⟩
    · left
      rw [handleState_unissued_iff, hl, hn]
      exact ⟨hns, hge⟩
    · left
      rw [handleState_unissued_iff, hl, hn]
      have hne : h2 ≠ hh := by
        intro hEq
        rw [hEq, hcase] at hnone
        simp at hnone
      rw [alookup_aupdate_ne hne]
      exact ⟨hns, hge⟩
    · by_cases hEq : h2 = s.nextHandle
      · right
        refine ⟨?_, hEq, hnone, tid, m2, u2, hj2, bp2, bl2, t2, hop, hOK⟩
        rw [handleState_live_iff, hl]
        subst hEq
        simp [alookup]
      · left
        rw [handleState_unissued_iff, hl, hn]
        constructor
        · have hne2 : ¬ (s.nextHandle = h2) := fun hx => hEq hx.symm
          simp [alookup, hne2, hnone]
        · omega
    · left
      rw [handleState_unissued_iff, hl, hn]
      have hne : h2 ≠ hh := by
        intro hEq2
        rw [hEq2, hcase] at hnone
        simp at hnone
      rw [alookup_aremove_ne hne]
      exact ⟨hns, hge⟩
    · left
      rw [handleState_unissued_iff, hl, hn]
      refine ⟨?_, hge⟩
      simp [alookup]
  · intro hli
    rw [handleState_live_iff] at hli
    obtain ⟨rv, hrv⟩ := Option.isSome_iff_exists.mp hli
    have hmem : h2 ∈ s.live.map Prod.fst := alookup_mem hrv
    have hlt : h2 < s.nextHandle := hbound h2 hmem
    rcases hmaster with ⟨hl, hn⟩ | ⟨hh, rr, n, hcase, hl, hn⟩ |
      ⟨tid, m2, u2, hj2, bp2, bl2, t2, st, rb, hop, hOK, hl, hn⟩ |
      ⟨tid, hh, rr, hop, hcase, hl, hn⟩ | ⟨hop, hl, hn⟩
    · left
      rw [handleState_live_iff, hl]
      exact hli
    · left
      rw [handleState_live_iff, hl]
      by_cases hEq : h2 = hh
      · subst hEq
        simp [alookup_aupdate_self (withCursor rr n) hrv]
      · rw [alookup_aupdate_ne hEq]
        exact hli
    · left
      rw [handleState_live_iff, hl]
      have hne : ¬ (s.nextHandle = h2) := by omega
      simp [alookup, hne, hrv]
    · by_cases hEq : h2 = hh
      · right
        subst hEq
        constructor
        · rw [handleState_freed_iff, hl, hn]
          refine ⟨?_, hlt⟩
          rw [alookup_aremove_self hnd]
          rfl
        · exact Or.inl ⟨tid, hop⟩
      · left
        rw [handleState_live_iff, hl]
        rw [alookup_aremove_ne hEq]
        exact hli
    · right
      constructor
      · rw [handleState_freed_iff, hl, hn]
        exact ⟨rfl, hlt⟩
      · exact Or.inr hop
  · intro r r2 hr hr2
    rcases hmaster with ⟨hl, hn⟩ | ⟨hh, rr, n, hcase, hl, hn⟩ |
      ⟨tid, m2, u2, hj2, bp2, bl2, t2, st, rb, hop, hOK, hl, hn⟩ |
      ⟨tid, hh, rr, hop, hcase, hl, hn⟩ | ⟨hop, hl, hn⟩
    · rw [hl, hr] at hr2
      simp only [Option.some.injEq] at hr2
      subst hr2
      exact ⟨rfl, rfl⟩
    · rw [hl] at hr2
      by_cases hEq : h2 = hh
      · subst hEq
        have hrr : rr = r := by
          rw [hcase] at hr
          simp only [Option.some.injEq] at hr
          exact hr
        subst hrr
        rw [alookup_aupdate_self (withCursor rr n) hcase] at hr2
        simp only [Option.some.injEq] at hr2
        subst hr2
        exact ⟨rfl, rfl⟩
      · rw [alookup_aupdate_ne hEq, hr] at hr2
        simp only [Option.some.injEq] at hr2
        subst hr2
        exact ⟨rfl, rfl⟩
    · rw [hl] at hr2
      have hlt : h2 < s.nextHandle := hbound h2 (alookup_mem hr)
      have hne : ¬ (s.nextHandle = h2) := by omega
      simp only [alookup, hne, if_false] at hr2
      rw [hr] at hr2
      simp only [Option.some.injEq] at hr2
      subst hr2
      exact ⟨rfl, rfl⟩
    · rw [hl] at hr2
      by_cases hEq : h2 = hh
      · subst hEq
        rw [alookup_aremove_self hnd] at hr2
        simp at hr2
      · rw [alookup_aremove_ne hEq, hr] at hr2
        simp only [Option.some.injEq] at hr2
        subst hr2
        exact ⟨rfl, rfl⟩
    · rw [hl] at hr2
      simp [alookup] at hr2

theorem claim_C5_witness :
    WF sLive ∧
    (WF (step envT sLive (Op.freeOp 1 0)) ∧
     (∀ h2 : Nat,
       (handleState h2 sLive = HState.live ∨
         handleState h2 sLive = HState.freed ∨
         handleState h2 sLive = HState.unissued) ∧
       (handleState h2 sLive = HState.live ↔ (alookup h2 sLive.live).isSome) ∧
       (handleState h2 sLive = HState.freed →
         handleState h2 (step envT sLive (Op.freeOp 1 0)) = HState.freed) ∧
       (handleState h2 sLive = HState.unissued →
         handleState h2 (step envT sLive (Op.freeOp 1 0)) = HState.unissued ∨
         (handleState h2 (step envT sLive (Op.freeOp 1 0)) = HState.live ∧
           h2 = sLive.nextHandle ∧ alookup h2 sLive.live = none ∧
           ∃ tid m2 url2 headersJson2 bodyPtr2 bodyLen2 timeoutMs2,
             Op.freeOp 1 0
               = Op.verb tid m2 url2 headersJson2 bodyPtr2 bodyLen2 timeoutMs2 ∧
             (dispatch envT tid m2 url2 headersJson2 bodyPtr2 bodyLen2
               timeoutMs2 sLive).1 = OK)) ∧
       (handleState h2 sLive = HState.live →
         handleState h2 (step envT sLive (Op.freeOp 1 0)) = HState.live ∨
         (handleState h2 (step envT sLive (Op.freeOp 1 0)) = HState.freed ∧
           ((∃ tid, Op.freeOp 1 0 = Op.freeOp tid h2) ∨
             Op.freeOp 1 0 = Op.shutdownOp))) ∧
       (∀ r r2, alookup h2 sLive.live = some r →
         alookup h2 (step envT sLive (Op.freeOp 1 0)).live = some r2 →
         r2.status = r.status ∧ r2.body = r.body))) :=
  ⟨⟨by decide, by decide, by decide⟩,
   claim_C5 envT sLive (Op.freeOp 1 0) ⟨by decide, by decide, by decide⟩⟩
